import Mathlib

/-!
Shallow embedding of the resumable harvesting pipeline
(`src/src/lib/state-manager.js`, `src/unnamed/part_003` = `src/lib/api.js`,
and the batch orchestrator in `src/src/main.js`), together with theorems
settling the specification claims about it.

Modelling conventions:
* JS `Set` objects are modelled as insertion-ordered duplicate-free
  `List String` values (`Set.add` appends when absent, `Array.from` is the
  identity, `new Set(array)` deduplicates keeping first occurrences).
* JS numbers holding counts are `Nat`; the one subtraction that can go
  negative (`getRemainingCount`) is computed in `Int`.
* Wall-clock timestamps (`new Date().toISOString()`) are threaded as opaque
  `String` arguments; elapsed-time / rate statistics, which are pure
  observability floating-point output, are not modelled.
* Strings that undergo character-level sanitization are `List Nat`
  (UTF-16 code units); `String.prototype.normalize` (Unicode NFC) is a host
  primitive and is threaded as an explicit function parameter.
-/

namespace HarvardScraper

/-- JS `Set.prototype.add`: appends the element iff it is not present
(insertion order preserved). -/
def jsSetAdd (s : List String) (x : String) : List String :=
  if s.contains x then s else s ++ [x]

/-- JS `new Set(array)`: deduplicates keeping the first occurrence of each
element, in order. -/
def jsSetOfArray (l : List String) : List String :=
  l.foldl jsSetAdd []

/-- JS `Set.prototype.has`. -/
def jsSetHas (s : List String) (x : String) : Bool :=
  s.contains x

/-! ## State manager (`src/src/lib/state-manager.js`) -/

/-- `CHECKPOINT_INTERVAL` constant of `state-manager.js`. -/
def CHECKPOINT_INTERVAL : Nat := 25

/-- The query object `{searchKeywords, department, institution}` built in
`main.js` and compared field-by-field by `_canResume`. -/
structure SearchParams where
  searchKeywords : String
  department : String
  institution : String
deriving DecidableEq

/-- The object written to the key-value store by `saveCheckpoint`
(all fields of `stateToSave`). -/
structure Snapshot where
  processedIds : List String
  totalProcessed : Nat
  totalRequested : Nat
  startedAt : Option String
  lastCheckpointAt : Option String
  searchParams : Option SearchParams
  checkpointCount : Nat
deriving DecidableEq

/-- The in-memory `this.state` of `StateManager`. -/
structure SMState where
  processedPersonIds : List String
  totalProcessed : Nat
  totalRequested : Nat
  startedAt : Option String
  lastCheckpointAt : Option String
  searchParams : Option SearchParams
  isResumed : Bool
  checkpointCount : Nat
deriving DecidableEq

/-- The state installed by the `StateManager` constructor (and `_clearState`).
The JS constructor leaves `checkpointCount` undefined, which reads as 0. -/
def initialState : SMState :=
  { processedPersonIds := []
    totalProcessed := 0
    totalRequested := 0
    startedAt := none
    lastCheckpointAt := none
    searchParams := none
    isResumed := false
    checkpointCount := 0 }

/-- `_canResume(savedState, currentParams)`: false when no saved state or no
saved `searchParams`; otherwise compares the three query fields. -/
def canResume (savedState : Option Snapshot) (currentParams : SearchParams) : Bool :=
  match savedState with
  | none => false
  | some s =>
    match s.searchParams with
    | none => false
    | some saved =>
      saved.searchKeywords == currentParams.searchKeywords &&
      saved.department == currentParams.department &&
      saved.institution == currentParams.institution

/-- The fresh-start path of `initialize`: `_clearState()` (which also nulls
the stored snapshot, not modelled here) followed by setting `startedAt`,
`searchParams` and `totalRequested`. -/
def freshStart (searchParams : SearchParams) (maxItems : Nat) (now : String) : SMState :=
  { initialState with
      startedAt := some now
      searchParams := some searchParams
      totalRequested := maxItems }

/-- `initialize(searchParams, maxItems)`. The key-value store read is passed in as
`store`; `now` stands for `new Date().toISOString()`. Returns the JS boolean
result together with the resulting `this.state`. On resume the JS builds
`new Set(savedState.processedIds || [])` and `savedState.totalProcessed || 0`
(`|| 0` is the identity on numbers, since only 0 is falsy). -/
def initializeState (store : Option Snapshot) (searchParams : SearchParams)
    (maxItems : Nat) (now : String) : Bool × SMState :=
  match store with
  | some saved =>
    if canResume (some saved) searchParams then
      (true,
        { processedPersonIds := jsSetOfArray saved.processedIds
          totalProcessed := saved.totalProcessed
          totalRequested := maxItems
          startedAt := saved.startedAt
          lastCheckpointAt := saved.lastCheckpointAt
          searchParams := saved.searchParams
          isResumed := true
          checkpointCount := 0 })
    else
      (false, freshStart searchParams maxItems now)
  | none => (false, freshStart searchParams maxItems now)

/-- `markProcessed(personId)`: `Set.add` then `totalProcessed++`. -/
def markProcessed (personId : String) (st : SMState) : SMState :=
  { st with
      processedPersonIds := jsSetAdd st.processedPersonIds personId
      totalProcessed := st.totalProcessed + 1 }

/-- `isProcessed(personId)`. -/
def isProcessed (st : SMState) (personId : String) : Bool :=
  jsSetHas st.processedPersonIds personId

/-- `getRemainingCount()`: plain subtraction, computed in `Int` because the
JS subtraction can go negative. -/
def getRemainingCount (st : SMState) : Int :=
  (st.totalRequested : Int) - (st.totalProcessed : Int)

/-- `shouldCheckpoint()`. -/
def shouldCheckpoint (st : SMState) : Bool :=
  st.totalProcessed % CHECKPOINT_INTERVAL == 0

/-- `saveCheckpoint()`: updates `lastCheckpointAt` on the in-memory state and
writes `stateToSave` (with `processedIds := Array.from(set)`, here the list
itself) to the store. The dataset-info and rate console reporting is pure
logging. Note the JS computes `(this.state.checkpointCount || 0) + 1` into
the snapshot without writing it back to `this.state`. -/
def saveCheckpoint (st : SMState) (now : String) : SMState × Snapshot :=
  let st' := { st with lastCheckpointAt := some now }
  (st',
    { processedIds := st'.processedPersonIds
      totalProcessed := st'.totalProcessed
      totalRequested := st'.totalRequested
      startedAt := st'.startedAt
      lastCheckpointAt := st'.lastCheckpointAt
      searchParams := st'.searchParams
      checkpointCount := st.checkpointCount + 1 })

/-- `_getProgressPercentage()`: `Math.round(100 * p / r)` with a 0 guard;
for nonnegative rationals `Math.round(x) = floor(x + 1/2)`, so this is
`(200 p + r) / (2 r)` in integer division. -/
def getProgressPercentage (st : SMState) : Nat :=
  if st.totalRequested = 0 then 0
  else (200 * st.totalProcessed + st.totalRequested) / (2 * st.totalRequested)

/-- The fields of the object returned by `getStats()` that do not depend on
wall-clock time (`elapsedSeconds` and `ratePerMinute` are elapsed-time
observability output and are not modelled). -/
structure Stats where
  totalProcessed : Nat
  totalRequested : Nat
  remaining : Int
  progressPercentage : Nat
  isResumed : Bool
deriving DecidableEq

/-- `getStats()` (time-independent fields). -/
def getStats (st : SMState) : Stats :=
  { totalProcessed := st.totalProcessed
    totalRequested := st.totalRequested
    remaining := getRemainingCount st
    progressPercentage := getProgressPercentage st
    isResumed := st.isResumed }

/-- Folding a sequence of `markProcessed` calls from the constructor state. -/
def markAll (ids : List String) : SMState :=
  ids.foldl (fun s id => markProcessed id s) initialState

/-! ## Search client (`src/unnamed/part_003` = `src/lib/api.js`)

Free-text inputs are `List Nat` (UTF-16 code units); `normalize` is the host
`String.prototype.normalize('NFC')` primitive, threaded as a parameter. -/

/-- `API_BASE` constant of `api.js`. -/
def API_BASE : String := "https://connects.catalyst.harvard.edu/profiles"

/-- `PROFILE_BASE` constant of `api.js`. -/
def PROFILE_BASE : String := API_BASE ++ "/display/Person"

/-- Page size used by `searchProfiles` (`const pageSize = 10`). -/
def pageSize : Nat := 10

/-- Characters removed by the regex `[\x00-\x1F\x7F]` (control chars + DEL). -/
def isControlChar (c : Nat) : Bool :=
  c ≤ 0x1F || c == 0x7F

/-- Characters removed by the regex over the metacharacter set
`<ANGLE> <QUOTE> ; & | BACKTICK $ ( ) BACKSLASH` of `api.js` line 21, as
UTF-16 code units: 60 62 39 34 59 38 124 96 36 40 41 92. -/
def isMetaChar (c : Nat) : Bool :=
  c == 60 || c == 62 || c == 39 || c == 34 || c == 59 || c == 38 ||
  c == 124 || c == 96 || c == 36 || c == 40 || c == 41 || c == 92

/-- The JS `String.prototype.trim` whitespace set (WhiteSpace + LineTerminator
code points). -/
def isJsWhitespace (c : Nat) : Bool :=
  (0x09 ≤ c && c ≤ 0x0D) || c == 0x20 || c == 0xA0 || c == 0x1680 ||
  (0x2000 ≤ c && c ≤ 0x200A) || c == 0x2028 || c == 0x2029 ||
  c == 0x202F || c == 0x205F || c == 0x3000 || c == 0xFEFF

/-- JS `String.prototype.trim`: strip whitespace from both ends. -/
def jsTrim (l : List Nat) : List Nat :=
  ((l.dropWhile isJsWhitespace).reverse.dropWhile isJsWhitespace).reverse

/-- `sanitizeInput(input)`: `normalize('NFC')`, strip control characters and
DEL, strip the metacharacter set, `substring(0, 200)`, `trim()`. The
non-string guard (`typeof input !== 'string'`) is outside the model: all
call sites pass `x || ''`, a string. -/
def sanitizeInput (normalize : List Nat → List Nat) (input : List Nat) : List Nat :=
  jsTrim ((((normalize input).filter (fun c => !(isControlChar c))).filter
    (fun c => !(isMetaChar c))).take 200)

/-- One element of the API response array `data.People`; absent JS fields are
`none` (JS `undefined`). -/
structure SearchItem where
  DisplayName : Option String
  PersonID : Option String
  InstitutionName : Option String
  DepartmentName : Option String
  FacultyRank : Option String
deriving DecidableEq

/-- The parsed API response body. `Count = 0` models both an absent `Count`
and a zero `Count` (both falsy in the `data.Count` truthiness test);
`People = []` models an absent, non-array or empty `data.People` (the three
cases the code collapses). -/
structure ApiResponse where
  Count : Nat
  People : List SearchItem
deriving DecidableEq

/-- The POST payload built in each iteration of `searchProfiles`. `Sort` is
a Lean keyword, so that field is named `sortMode` here. -/
structure Payload where
  Keyword : List Nat
  LastName : List Nat
  FirstName : List Nat
  InstitutionName : List Nat
  DepartmentName : List Nat
  FacultyTypeName : List Nat
  OtherOptionsName : List String
  KeywordExact : Bool
  DepartmentExcept : Bool
  InstitutionExcept : Bool
  sortMode : String
  SearchType : String
  Count : Nat
  Offset : Nat
deriving DecidableEq

/-- The payload literal of `api.js` lines 49-64 (free-text fields already
sanitized by the caller). -/
def mkPayload (safeKeyword safeInstitution safeDepartment : List Nat)
    (count offset : Nat) : Payload :=
  { Keyword := safeKeyword
    LastName := []
    FirstName := []
    InstitutionName := safeInstitution
    DepartmentName := safeDepartment
    FacultyTypeName := []
    OtherOptionsName := []
    KeywordExact := false
    DepartmentExcept := false
    InstitutionExcept := false
    sortMode := "relevance"
    SearchType := "people"
    Count := count
    Offset := offset }

/-- The record summary object pushed by `searchProfiles` (and consumed by
`main.js`). -/
structure Profile where
  displayName : String
  personId : String
  institutionName : String
  departmentName : String
  facultyRank : String
  profileUrl : String
deriving DecidableEq

/-- The profile literal of `api.js` lines 124-131. In the template literal
for `profileUrl`, an absent `item.PersonID` stringifies as "undefined". -/
def mkProfile (item : SearchItem) : Profile :=
  { displayName := item.DisplayName.getD ""
    personId := item.PersonID.getD ""
    institutionName := item.InstitutionName.getD ""
    departmentName := item.DepartmentName.getD ""
    facultyRank := item.FacultyRank.getD ""
    profileUrl := PROFILE_BASE ++ "/" ++
      (match item.PersonID with | some s => s | none => "undefined") }

/-- The inner `for (const item of data.People)` loop: push each item's
profile, but break as soon as `profiles.length >= maxItems`. -/
def pushUpTo (maxItems : Nat) (profiles : List Profile) (items : List SearchItem) :
    List Profile :=
  match items with
  | [] => profiles
  | item :: rest =>
    if maxItems ≤ profiles.length then profiles
    else pushUpTo maxItems (profiles ++ [mkProfile item]) rest

/-- `if (totalAvailable === null && data.Count) totalAvailable = data.Count`. -/
def updateTotal (total : Option Nat) (count : Nat) : Option Nat :=
  match total with
  | none => if count ≠ 0 then some count else none
  | some t => some t

/-- `totalAvailable !== null && offset > totalAvailable`. -/
def exceedsTotal (total : Option Nat) (offset : Nat) : Bool :=
  match total with
  | some t => offset > t
  | none => false

/-- The `while (profiles.length < maxItems)` loop of `searchProfiles`.

`api offset` is the deterministic outcome of the `withRetry`-wrapped page
fetch at that offset: `some data` for a parsed response, `none` when the
retry budget was exhausted and the thrown error was caught by the
surrounding `catch`, which `break`s out of the loop.

Returns the gathered profiles together with the trace of payloads sent.
Inter-request delays (`setTimeout`) are pure timing and not modelled. -/
def searchLoop (api : Nat → Option ApiResponse) (maxItems : Nat)
    (safeKeyword safeInstitution safeDepartment : List Nat)
    (acc : List Profile) (offset : Nat) (total : Option Nat) (empties : Nat) :
    List Profile × List Payload :=
  if h1 : acc.length < maxItems then
    let pl := mkPayload safeKeyword safeInstitution safeDepartment pageSize offset
    match api offset with
    | none => (acc, [pl])
    | some data =>
      let t' := updateTotal total data.Count
      match data.People with
      | [] =>
        if h3 : 5 ≤ empties + 1 then (acc, [pl])
        else if exceedsTotal t' offset then (acc, [pl])
        else
          let r := searchLoop api maxItems safeKeyword safeInstitution
            safeDepartment acc (offset + pageSize) t' (empties + 1)
          (r.1, pl :: r.2)
      | item :: rest =>
        let acc' := pushUpTo maxItems acc (item :: rest)
        if h5 : maxItems ≤ acc'.length then (acc', [pl])
        else
          let r := searchLoop api maxItems safeKeyword safeInstitution
            safeDepartment acc' (offset + pageSize) t' 0
          (r.1, pl :: r.2)
  else (acc, [])
termination_by 6 * (maxItems - acc.length) + (5 - empties)
decreasing_by
  · omega
  · have hmono : ∀ (items : List SearchItem) (a : List Profile),
        a.length ≤ (pushUpTo maxItems a items).length := by
      intro items
      induction items with
      | nil => intro a; simp [pushUpTo]
      | cons it rest ih =>
        intro a
        rw [pushUpTo]
        by_cases hc : maxItems ≤ a.length
        · simp [hc]
        · have := ih (a ++ [mkProfile it])
          simp only [List.length_append, List.length_singleton] at this
          simp [hc]
          omega
    have hgrow : acc.length < (pushUpTo maxItems acc (item :: rest)).length := by
      rw [pushUpTo]
      have hc : ¬ maxItems ≤ acc.length := by omega
      have := hmono rest (acc ++ [mkProfile item])
      simp only [List.length_append, List.length_singleton] at this
      simp [hc]
      omega
    omega

/-- `searchProfiles({keyword, department, institution, maxItems})`: sanitize
the three free-text fields identically, run the pagination loop from
`offset = 1` with unknown total and zero empty pages, and return
`profiles.slice(0, maxItems)` (together with the payload trace). -/
def searchProfiles (normalize : List Nat → List Nat)
    (api : Nat → Option ApiResponse) (maxItems : Nat)
    (keyword department institution : List Nat) : List Profile × List Payload :=
  let safeKeyword := sanitizeInput normalize keyword
  let safeDepartment := sanitizeInput normalize department
  let safeInstitution := sanitizeInput normalize institution
  let r := searchLoop api maxItems safeKeyword safeInstitution safeDepartment [] 1 none 0
  (r.1.take maxItems, r.2)

/-! ## Batch orchestrator (`src/src/main.js`, stage 2)

Per-item enrichment is abstracted by an oracle `orc : String → Nat → Attempt`
giving the outcome of attempt number `n` (the crawlee `request.retryCount`)
for a given `personId`. The observable effects are the sequence of
`Actor.pushData` calls (output-sink writes) and `markProcessed` calls,
recorded as an event trace. `saveCheckpoint` calls write to the key-value
store, never to the output sink, so they are not trace events here; batch
partitioning only interleaves extra checkpoints and delays, so the run is
modelled as one sequential pass (maxConcurrency is 1). -/

/-- The fields of the `extractProfileDetails` success result used to build
the enriched record; `email` is the final `extractedEmail` after the
best-effort OCR fallback (OCR is an external collaborator). -/
structure Detail where
  DisplayName : String
  FirstName : String
  LastName : String
  Title : String
  Institution : String
  Department : String
  Address : String
  Phone : String
  Fax : String
  email : String
deriving DecidableEq

/-- Outcome of one crawl attempt for a request:
* `navFail`: navigation/timeout failure — `requestHandler` never runs for
  this attempt and the error goes to the crawler (retry or
  `failedRequestHandler`);
* `extractFail`: `requestHandler` ran and enrichment failed (caught by its
  `try`/`catch`);
* `ok`: enrichment succeeded. -/
inductive Attempt where
  | navFail (msg : String)
  | extractFail (msg : String)
  | ok (detail : Detail)

/-- JS `a || b` on strings (empty string is falsy). -/
def jsOr (a b : String) : String :=
  if a == "" then b else a

/-- An output record as pushed to the dataset. Fields absent on a given JS
object literal are `none`; `partialFlag` models the JS `isPartial` field
(absent on Complete records, which reads as false). `collectedAt` and the
`query` echo are constants of the run and are not modelled. -/
structure OutputRecord where
  personId : String
  profileUrl : String
  displayName : String
  institution : Option String
  department : Option String
  facultyRank : Option String
  error : Option String
  partialFlag : Bool
deriving DecidableEq

/-- The Complete record (`enrichedProfile`, `main.js` lines 198-214). -/
def completeRecord (p : Profile) (d : Detail) : OutputRecord :=
  { personId := p.personId
    profileUrl := p.profileUrl
    displayName := jsOr d.DisplayName p.displayName
    institution := some (jsOr d.Institution p.institutionName)
    department := some (jsOr d.Department p.departmentName)
    facultyRank := some p.facultyRank
    error := none
    partialFlag := false }

/-- The Partial record pushed after the in-handler retry budget is exhausted
(`partialData`, `main.js` lines 236-247). -/
def partialRecord (p : Profile) (msg : String) : OutputRecord :=
  { personId := p.personId
    profileUrl := p.profileUrl
    displayName := p.displayName
    institution := some p.institutionName
    department := some p.departmentName
    facultyRank := some p.facultyRank
    error := some msg
    partialFlag := true }

/-- The failure record pushed by `failedRequestHandler` (`failedData`,
`main.js` lines 264-271; note it has no institution/department fields). -/
def failedRecord (p : Profile) (msg : String) : OutputRecord :=
  { personId := p.personId
    profileUrl := p.profileUrl
    displayName := p.displayName
    institution := none
    department := none
    facultyRank := none
    error := some msg
    partialFlag := true }

/-- Observable pipeline events: a dataset write (`Actor.pushData`) or a
`stateManager.markProcessed` call. -/
inductive Ev where
  | push (record : OutputRecord)
  | mark (personId : String)
deriving DecidableEq

/-- `maxRequestRetries: 2` of the crawler options. -/
def maxRequestRetries : Nat := 2

/-- Processing of one request, starting at attempt `retryCount`:
* on `navFail`, the crawler retries while `retryCount < maxRequestRetries`,
  after which `failedRequestHandler` pushes `failedData` and marks;
* `requestHandler` first re-checks `isProcessed` and returns if already
  processed; on success it pushes the Complete record, then marks; on a
  caught error it pushes `partialData` and marks if `retryCount >= 2`,
  otherwise rethrows so the crawler retries. -/
def runRequest (orc : String → Nat → Attempt) (st : SMState) (p : Profile)
    (retryCount : Nat) : SMState × List Ev :=
  match orc p.personId retryCount with
  | Attempt.navFail msg =>
    if h : retryCount < maxRequestRetries then
      runRequest orc st p (retryCount + 1)
    else
      (markProcessed p.personId st,
        [Ev.push (failedRecord p msg), Ev.mark p.personId])
  | Attempt.extractFail msg =>
    if isProcessed st p.personId then (st, [])
    else if h : maxRequestRetries ≤ retryCount then
      (markProcessed p.personId st,
        [Ev.push (partialRecord p msg), Ev.mark p.personId])
    else
      runRequest orc st p (retryCount + 1)
  | Attempt.ok d =>
    if isProcessed st p.personId then (st, [])
    else
      (markProcessed p.personId st,
        [Ev.push (completeRecord p d), Ev.mark p.personId])
termination_by maxRequestRetries + 1 - retryCount
decreasing_by
  · simp only [maxRequestRetries] at h ⊢
    omega
  · simp only [maxRequestRetries] at h ⊢
    omega

/-- Sequential processing of a request list (maxConcurrency is 1), threading
the state and concatenating the event traces. -/
def runList (orc : String → Nat → Attempt) (st : SMState) :
    List Profile → SMState × List Ev
  | [] => (st, [])
  | p :: ps =>
    let r1 := runRequest orc st p 0
    let r2 := runList orc r1.1 ps
    (r2.1, r1.2 ++ r2.2)

/-- Request-queue deduplication: crawlee keys requests by their `uniqueKey`,
which defaults to the request URL, so only the first request per URL is
enqueued across `addRequests` calls of a run. -/
def dedupByUrl (seen : List String) : List Profile → List Profile
  | [] => []
  | p :: ps =>
    if seen.contains p.profileUrl then dedupByUrl seen ps
    else p :: dedupByUrl (p.profileUrl :: seen) ps

/-- The stage-2 pipeline of `main.js`: filter the candidate list against
`getProcessedIds()`, enqueue (deduplicating by URL), and process
sequentially. -/
def runPipeline (orc : String → Nat → Attempt) (st : SMState)
    (profiles : List Profile) : SMState × List Ev :=
  runList orc st
    (dedupByUrl [] (profiles.filter (fun p => !(isProcessed st p.personId))))

/-- The URL `searchProfiles` assigns to a summary with this `personId`. -/
def profileDisplayUrl (personId : String) : String :=
  PROFILE_BASE ++ "/" ++ personId

/-- Whether an event is a dataset write of a record with this id. -/
def isPushFor (id : String) : Ev → Bool
  | Ev.push r => r.personId == id
  | Ev.mark _ => false

/-- Number of output records written for this id in a trace. -/
def countPush (id : String) (t : List Ev) : Nat :=
  (t.filter (isPushFor id)).length

/-- Whether an event is a dataset write of a Partial record with this id. -/
def isPartialPushFor (id : String) : Ev → Bool
  | Ev.push r => r.personId == id && r.partialFlag
  | Ev.mark _ => false

/-- Number of Partial records written for this id in a trace. -/
def countPartialPush (id : String) (t : List Ev) : Nat :=
  (t.filter (isPartialPushFor id)).length

/-- Scans a trace left to right, accumulating the ids pushed so far, and
checks that every `mark id` is preceded by a completed push of a record
with that id. -/
def pbmCheck (pushed : List String) : List Ev → Bool
  | [] => true
  | Ev.push r :: rest => pbmCheck (r.personId :: pushed) rest
  | Ev.mark id :: rest => pushed.contains id && pbmCheck pushed rest

/-- Whether an attempt outcome is a success. -/
def isOkAttempt : Attempt → Bool
  | Attempt.ok _ => true
  | Attempt.navFail _ => false
  | Attempt.extractFail _ => false

/-- The ids pushed in a trace, accumulated onto `pushed` (newest first);
used to state how `pbmCheck` decomposes over trace concatenation. -/
def pushedAccum (pushed : List String) (t : List Ev) : List String :=
  t.foldl
    (fun acc e =>
      match e with
      | Ev.push r => r.personId :: acc
      | Ev.mark _ => acc)
    pushed

/-! ## Helper lemmas -/

theorem jsSetAdd_fresh (s : List String) (x : String) (hx : x ∉ s) :
    jsSetAdd s x = s ++ [x] := by
  simp [jsSetAdd, List.elem_iff, hx]

theorem jsSetOfArray_aux (l : List String) :
    ∀ acc : List String, (acc ++ l).Nodup → l.foldl jsSetAdd acc = acc ++ l := by
  induction l with
  | nil => intro acc _; simp
  | cons x xs ih =>
    intro acc hnd
    have hdisj := List.disjoint_of_nodup_append hnd
    have hx : x ∉ acc := fun hmem =>
      (List.disjoint_left.mp hdisj hmem) (List.mem_cons_self x xs)
    have hnd' : ((acc ++ [x]) ++ xs).Nodup := by
      simpa [List.append_assoc] using hnd
    simp only [List.foldl_cons, jsSetAdd_fresh acc x hx]
    have := ih (acc ++ [x]) hnd'
    simpa [List.append_assoc] using this

theorem jsSetOfArray_of_nodup (l : List String) (h : l.Nodup) :
    jsSetOfArray l = l := by
  simpa using jsSetOfArray_aux l [] (by simpa using h)

theorem markAll_invariant_aux (l : List String) :
    ∀ s : SMState, l.Nodup →
      (∀ id ∈ l, id ∉ s.processedPersonIds) →
      s.totalProcessed = s.processedPersonIds.length →
      (l.foldl (fun s id => markProcessed id s) s).totalProcessed
        = (l.foldl (fun s id => markProcessed id s) s).processedPersonIds.length := by
  induction l with
  | nil => intro s _ _ h; simpa using h
  | cons x xs ih =>
    intro s hnd hfresh hinv
    simp only [List.foldl_cons]
    have hx : x ∉ s.processedPersonIds := hfresh x (List.mem_cons_self x xs)
    apply ih
    · exact hnd.of_cons
    · intro id hid
      have hne : id ≠ x := by
        rintro rfl
        exact (List.nodup_cons.mp hnd).1 hid
      simp [markProcessed, jsSetAdd_fresh _ _ hx]
      exact ⟨hfresh id (List.mem_cons_of_mem x hid), hne⟩
    · simp [markProcessed, jsSetAdd_fresh _ _ hx, hinv]

theorem canResume_iff (store : Option Snapshot) (q : SearchParams) :
    canResume store q = true ↔
      ∃ snap sp, store = some snap ∧ snap.searchParams = some sp ∧
        sp.searchKeywords = q.searchKeywords ∧ sp.department = q.department ∧
        sp.institution = q.institution := by
  cases store with
  | none => simp [canResume]
  | some snap =>
    cases hsp : snap.searchParams with
    | none => simp [canResume, hsp]
    | some sp =>
      simp only [canResume, hsp, Bool.and_eq_true, beq_iff_eq]
      constructor
      · rintro ⟨⟨h1, h2⟩, h3⟩
        exact ⟨snap, sp, rfl, hsp, h1, h2, h3⟩
      · rintro ⟨snap', sp', hs, hsp', h1, h2, h3⟩
        cases hs
        rw [hsp] at hsp'
        cases hsp'
        exact ⟨⟨h1, h2⟩, h3⟩

theorem mem_of_mem_jsTrim (c : Nat) (l : List Nat) (h : c ∈ jsTrim l) : c ∈ l := by
  simp only [jsTrim, List.mem_reverse] at h
  have h1 : c ∈ (l.dropWhile isJsWhitespace).reverse :=
    (List.dropWhile_sublist _).subset h
  rw [List.mem_reverse] at h1
  exact (List.dropWhile_sublist _).subset h1

theorem jsTrim_length_le (l : List Nat) : (jsTrim l).length ≤ l.length := by
  simp only [jsTrim, List.length_reverse]
  calc ((l.dropWhile isJsWhitespace).reverse.dropWhile isJsWhitespace).length
      ≤ (l.dropWhile isJsWhitespace).reverse.length :=
        (List.dropWhile_sublist _).length_le
    _ = (l.dropWhile isJsWhitespace).length := List.length_reverse _
    _ ≤ l.length := (List.dropWhile_sublist _).length_le

theorem searchLoop_payloads (api : Nat → Option ApiResponse) (maxItems : Nat)
    (k i d : List Nat) (acc : List Profile) (offset : Nat) (total : Option Nat)
    (empties : Nat) :
    ∀ p ∈ (searchLoop api maxItems k i d acc offset total empties).2,
      p.Keyword = k ∧ p.InstitutionName = i ∧ p.DepartmentName = d := by
  induction acc, offset, total, empties using searchLoop.induct api maxItems k i d with
  | case1 acc offset total empties h1 hapi =>
    intro p hp
    rw [searchLoop] at hp
    simp [h1, hapi] at hp
    subst hp
    exact ⟨rfl, rfl, rfl⟩
  | case2 acc offset total empties h1 data hapi hPeople h3 =>
    intro p hp
    rw [searchLoop] at hp
    simp [h1, hapi, hPeople, h3] at hp
    subst hp
    exact ⟨rfl, rfl, rfl⟩
  | case3 acc offset total empties h1 data hapi t' hPeople h3 hex =>
    intro p hp
    rw [searchLoop] at hp
    have hex2 : exceedsTotal (updateTotal total data.Count) offset = true := hex
    simp [h1, hapi, hPeople, h3, hex2] at hp
    subst hp
    exact ⟨rfl, rfl, rfl⟩
  | case4 acc offset total empties h1 data hapi t' hPeople h3 hex ih =>
    intro p hp
    rw [searchLoop] at hp
    have hex2 : exceedsTotal (updateTotal total data.Count) offset = false := by
      simpa using hex
    simp [h1, hapi, hPeople, h3, hex2] at hp
    rcases hp with hp | hp
    · subst hp
      exact ⟨rfl, rfl, rfl⟩
    · exact ih p hp
  | case5 acc offset total empties h1 data hapi head rest hPeople acc' h5 =>
    intro p hp
    rw [searchLoop] at hp
    have h52 : maxItems ≤ (pushUpTo maxItems acc (head :: rest)).length := h5
    simp [h1, hapi, hPeople, h52] at hp
    subst hp
    exact ⟨rfl, rfl, rfl⟩
  | case6 acc offset total empties h1 data hapi t' head rest hPeople acc' h5 ih =>
    intro p hp
    rw [searchLoop] at hp
    have h52 : ¬ maxItems ≤ (pushUpTo maxItems acc (head :: rest)).length := h5
    simp [h1, hapi, hPeople, h52] at hp
    rcases hp with hp | hp
    · subst hp
      exact ⟨rfl, rfl, rfl⟩
    · exact ih p hp
  | case7 acc offset total empties h1 =>
    intro p hp
    rw [searchLoop] at hp
    simp [h1] at hp

theorem searchLoop_empties_aux (api : Nat → Option ApiResponse) (maxItems : Nat)
    (k i d : List Nat) :
    ∀ n acc offset empties, 1 ≤ n → empties + n = 5 →
      (∀ j, j < n → api (offset + pageSize * j) = some { Count := 0, People := [] }) →
      (searchLoop api maxItems k i d acc offset none empties).1 = acc := by
  intro n
  induction n with
  | zero =>
    intro acc offset empties h
    exact absurd h (by omega)
  | succ m ih =>
    intro acc offset empties _ hsum hpages
    by_cases h1 : acc.length < maxItems
    · have hapi : api offset = some { Count := 0, People := [] } := by
        have := hpages 0 (by omega)
        simpa using this
      rw [searchLoop]
      by_cases h3 : 5 ≤ empties + 1
      · simp [h1, hapi, h3]
      · have hm1 : 1 ≤ m := by omega
        have hpages' : ∀ j, j < m →
            api (offset + pageSize + pageSize * j) = some { Count := 0, People := [] } := by
          intro j hj
          have := hpages (j + 1) (by omega)
          rw [show offset + pageSize * (j + 1) = offset + pageSize + pageSize * j
            from by ring] at this
          exact this
        have hrec := ih acc (offset + pageSize) (empties + 1) hm1 (by omega) hpages'
        simp [h1, hapi, h3, updateTotal, exceedsTotal]
        exact hrec
    · rw [searchLoop]
      simp [h1]

theorem initializeState_resume_eq (snap : Snapshot) (q : SearchParams) (n : Nat)
    (now : String) (h : canResume (some snap) q = true) :
    initializeState (some snap) q n now =
      (true, { processedPersonIds := jsSetOfArray snap.processedIds
               totalProcessed := snap.totalProcessed
               totalRequested := n
               startedAt := snap.startedAt
               lastCheckpointAt := snap.lastCheckpointAt
               searchParams := snap.searchParams
               isResumed := true
               checkpointCount := 0 }) := by
  simp [initializeState, h]

/-! ## Claim theorems -/

/-- C1: for every sequence of `markProcessed` calls on a fresh `StateManager`
whose `personId` arguments are pairwise distinct, after each call (i.e. after
every prefix of the sequence) the counter `totalProcessed` equals the
cardinality of the `processedPersonIds` set. -/
theorem markProcessed_card_invariant (ids : List String) (h : ids.Nodup) :
    ∀ k : Nat, (markAll (ids.take k)).totalProcessed
      = (markAll (ids.take k)).processedPersonIds.length := by
  intro k
  apply markAll_invariant_aux (ids.take k) initialState
  · exact h.sublist (List.take_sublist k ids)
  · intro id _
    simp [initialState]
  · simp [initialState]

/-- Witness for C1 at a concrete distinct-id sequence. -/
theorem markProcessed_card_invariant_witness :
    (["a", "b", "c"] : List String).Nodup ∧
    ∀ k : Nat, (markAll ((["a", "b", "c"] : List String).take k)).totalProcessed
      = (markAll ((["a", "b", "c"] : List String).take k)).processedPersonIds.length :=
  ⟨by decide, markProcessed_card_invariant ["a", "b", "c"] (by decide)⟩

/-- C4: `initialize(query, totalRequested)` resumes — returning true, setting
`isResumed`, adopting the persisted `processedIds` and `totalProcessed`, and
updating `totalRequested` — iff a persisted snapshot exists whose query equals
the current query on all three fields; otherwise it returns false with
`isResumed = false` and `totalProcessed = 0`. -/
theorem initializeState_resume_iff (store : Option Snapshot) (q : SearchParams)
    (n : Nat) (now : String) :
    ((initializeState store q n now).1 = true ↔
      ∃ snap sp, store = some snap ∧ snap.searchParams = some sp ∧
        sp.searchKeywords = q.searchKeywords ∧ sp.department = q.department ∧
        sp.institution = q.institution) ∧
    ((initializeState store q n now).1 = true →
      (initializeState store q n now).2.isResumed = true ∧
      (∀ snap, store = some snap →
        (initializeState store q n now).2.processedPersonIds
          = jsSetOfArray snap.processedIds ∧
        (initializeState store q n now).2.totalProcessed = snap.totalProcessed) ∧
      (initializeState store q n now).2.totalRequested = n) ∧
    ((initializeState store q n now).1 = false →
      (initializeState store q n now).2.isResumed = false ∧
      (initializeState store q n now).2.totalProcessed = 0) := by
  cases store with
  | none =>
    refine ⟨?_, ?_, ?_⟩
    · simp only [initializeState]
      constructor
      · intro h; exact absurd h (by simp)
      · rintro ⟨snap, sp, hs, _⟩; cases hs
    · intro h; simp [initializeState] at h
    · intro _; simp [initializeState, freshStart, initialState]
  | some snap =>
    by_cases hc : canResume (some snap) q = true
    · refine ⟨?_, ?_, ?_⟩
      · rw [show (initializeState (some snap) q n now).1 = true by
          simp [initializeState, hc]]
        simp only [true_iff]
        exact (canResume_iff (some snap) q).mp hc
      · intro _
        refine ⟨by simp [initializeState, hc], ?_, by simp [initializeState, hc]⟩
        rintro snap' hs
        cases hs
        constructor
        · simp [initializeState, hc]
        · simp [initializeState, hc]
      · intro h
        rw [show (initializeState (some snap) q n now).1 = true by
          simp [initializeState, hc]] at h
        cases h
    · have hfalse : (initializeState (some snap) q n now).1 = false := by
        simp [initializeState, hc]
      refine ⟨?_, ?_, ?_⟩
      · rw [hfalse]
        constructor
        · intro h; cases h
        · intro hex
          exact absurd ((canResume_iff (some snap) q).mpr hex) hc
      · intro h; rw [hfalse] at h; cases h
      · intro _
        have : (initializeState (some snap) q n now).2 = freshStart q n now := by
          simp [initializeState, hc]
        rw [this]
        simp [freshStart, initialState]

/-- Witness for C4: a matching snapshot resumes with the persisted counter. -/
theorem initializeState_resume_iff_witness :
    (initializeState
      (some { processedIds := ["a", "b"], totalProcessed := 2, totalRequested := 5,
              startedAt := none, lastCheckpointAt := none,
              searchParams := some { searchKeywords := "k", department := "d",
                                     institution := "i" },
              checkpointCount := 1 })
      { searchKeywords := "k", department := "d", institution := "i" }
      7 "t0").1 = true :=
  ((initializeState_resume_iff _ _ 7 "t0").1).mpr
    ⟨_, _, rfl, rfl, rfl, rfl, rfl⟩

/-- C5 counterexample: at `totalProcessed = 0` — which is not an element of
the claimed trigger set {N, 2N, 3N, ...} — `shouldCheckpoint()` returns
`true`, not `false` as the claim requires. -/
theorem shouldCheckpoint_zero_counterexample :
    initialState.totalProcessed = 0 ∧
    shouldCheckpoint initialState = true ∧
    ∀ k : Nat, 1 ≤ k → initialState.totalProcessed ≠ k * CHECKPOINT_INTERVAL := by
  refine ⟨rfl, by decide, ?_⟩
  intro k hk
  simp only [initialState, CHECKPOINT_INTERVAL]
  omega

/-- C5 amended: `shouldCheckpoint()` returns true exactly when
`totalProcessed` is a multiple of the checkpoint interval, including 0
(the trigger set is {0, N, 2N, 3N, ...}). -/
theorem shouldCheckpoint_iff_multiple (st : SMState) :
    shouldCheckpoint st = true ↔
      ∃ k : Nat, st.totalProcessed = k * CHECKPOINT_INTERVAL := by
  simp only [shouldCheckpoint, CHECKPOINT_INTERVAL, beq_iff_eq]
  constructor
  · intro h
    exact ⟨st.totalProcessed / 25, by omega⟩
  · rintro ⟨k, hk⟩
    omega

/-- C6: saving a checkpoint and then loading it via `initialize` with the
same query resumes and reproduces the `processedPersonIds` set and the
`totalProcessed` value at the time of the save. -/
theorem checkpoint_roundtrip (st : SMState) (q : SearchParams) (n : Nat)
    (now now2 : String) (hq : st.searchParams = some q)
    (hnd : st.processedPersonIds.Nodup) :
    (initializeState (some (saveCheckpoint st now).2) q n now2).1 = true ∧
    (initializeState (some (saveCheckpoint st now).2) q n now2).2.processedPersonIds
      = st.processedPersonIds ∧
    (initializeState (some (saveCheckpoint st now).2) q n now2).2.totalProcessed
      = st.totalProcessed := by
  have hcan : canResume (some (saveCheckpoint st now).2) q = true := by
    apply (canResume_iff _ _).mpr
    exact ⟨(saveCheckpoint st now).2, q, rfl, by simp [saveCheckpoint, hq],
      rfl, rfl, rfl⟩
  rw [initializeState_resume_eq _ _ _ _ hcan]
  refine ⟨rfl, ?_, rfl⟩
  show jsSetOfArray (saveCheckpoint st now).2.processedIds = st.processedPersonIds
  simp only [saveCheckpoint]
  exact jsSetOfArray_of_nodup st.processedPersonIds hnd

/-- Witness for C6 at a concrete state. -/
theorem checkpoint_roundtrip_witness :
    ({ processedPersonIds := ["a", "b"], totalProcessed := 2, totalRequested := 5,
       startedAt := some "t0", lastCheckpointAt := none,
       searchParams := some { searchKeywords := "k", department := "d",
                              institution := "i" },
       isResumed := false, checkpointCount := 0 } : SMState).searchParams
      = some { searchKeywords := "k", department := "d", institution := "i" } ∧
    (["a", "b"] : List String).Nodup ∧
    (initializeState
      (some (saveCheckpoint
        { processedPersonIds := ["a", "b"], totalProcessed := 2, totalRequested := 5,
          startedAt := some "t0", lastCheckpointAt := none,
          searchParams := some { searchKeywords := "k", department := "d",
                                 institution := "i" },
          isResumed := false, checkpointCount := 0 } "t1").2)
      { searchKeywords := "k", department := "d", institution := "i" }
      9 "t2").2.totalProcessed = 2 :=
  ⟨rfl, by decide,
    (checkpoint_roundtrip _ _ 9 "t1" "t2" rfl (by decide)).2.2⟩

/-- C10: `getRemainingCount()` is plain unclamped subtraction
`totalRequested - totalProcessed`, `getStats().remaining` equals it, and it
is negative whenever `totalProcessed` exceeds `totalRequested`. -/
theorem remaining_no_clamp (st : SMState) :
    getRemainingCount st = (st.totalRequested : Int) - (st.totalProcessed : Int) ∧
    (getStats st).remaining = getRemainingCount st ∧
    (st.totalRequested < st.totalProcessed → getRemainingCount st < 0) := by
  refine ⟨rfl, rfl, ?_⟩
  intro h
  simp only [getRemainingCount]
  omega

/-- Witness for C10: resuming 5 processed items against a new target of 3
yields a negative remaining count. -/
theorem remaining_no_clamp_witness :
    (3 : Nat) < 5 ∧
    getRemainingCount { initialState with totalRequested := 3, totalProcessed := 5 } < 0 :=
  ⟨by decide, (remaining_no_clamp _).2.2 (by decide)⟩

/-- C7: every free-text query field is sanitized before transmission:
`sanitizeInput` is the pipeline normalize → strip control chars → strip
metachars → truncate to 200 → trim; its output contains no control or
metacharacter and has length at most 200; and the identical function is
applied to keyword, department and institution in every payload sent. -/
theorem sanitize_payload (normalize : List Nat → List Nat)
    (api : Nat → Option ApiResponse) (maxItems : Nat)
    (keyword department institution : List Nat) :
    (∀ s, sanitizeInput normalize s =
      jsTrim ((((normalize s).filter (fun c => !(isControlChar c))).filter
        (fun c => !(isMetaChar c))).take 200)) ∧
    (∀ s, ∀ c ∈ sanitizeInput normalize s,
      isControlChar c = false ∧ isMetaChar c = false) ∧
    (∀ s, (sanitizeInput normalize s).length ≤ 200) ∧
    (∀ p ∈ (searchProfiles normalize api maxItems keyword department institution).2,
      p.Keyword = sanitizeInput normalize keyword ∧
      p.DepartmentName = sanitizeInput normalize department ∧
      p.InstitutionName = sanitizeInput normalize institution) := by
  refine ⟨fun s => rfl, ?_, ?_, ?_⟩
  · intro s c hc
    have hmem := mem_of_mem_jsTrim c _ hc
    have hmem2 := List.mem_of_mem_take hmem
    rcases List.mem_filter.mp hmem2 with ⟨hmem3, hmeta⟩
    rcases List.mem_filter.mp hmem3 with ⟨_, hctrl⟩
    constructor
    · simpa using hctrl
    · simpa using hmeta
  · intro s
    calc (sanitizeInput normalize s).length
        ≤ ((((normalize s).filter (fun c => !(isControlChar c))).filter
            (fun c => !(isMetaChar c))).take 200).length := jsTrim_length_le _
      _ ≤ 200 := List.length_take_le _ _
  · intro p hp
    have h := searchLoop_payloads api maxItems (sanitizeInput normalize keyword)
      (sanitizeInput normalize institution) (sanitizeInput normalize department)
      [] 1 none 0 p hp
    exact ⟨h.1, h.2.2, h.2.1⟩

/-- Witness for C7: in a concrete run the payload's Keyword field is the
sanitized keyword. -/
theorem sanitize_payload_witness :
    (mkPayload [] [] [] 10 1).Keyword = sanitizeInput (fun l => l) [] := by
  have hmem : mkPayload [] [] [] 10 1 ∈
      (searchLoop (fun _ => none) 1 (sanitizeInput (fun l => l) [])
        (sanitizeInput (fun l => l) []) (sanitizeInput (fun l => l) [])
        [] 1 none 0).2 := by
    rw [searchLoop]
    simp +decide [mkPayload, pageSize, sanitizeInput, jsTrim]
  exact ((sanitize_payload (fun l => l) (fun _ => none) 1 [] [] []).2.2.2
    (mkPayload [] [] [] 10 1) hmem).1

/-- C8: for maxItems at least 1, the collection function returns at most
maxItems summaries; once the accumulated count has reached maxItems the loop
issues no further page request; and whenever at least maxItems items were
gathered the final result has exactly maxItems elements. -/
theorem collect_maxItems_bound (normalize : List Nat → List Nat)
    (api : Nat → Option ApiResponse) (maxItems : Nat)
    (keyword department institution : List Nat) (hm : 1 ≤ maxItems) :
    ((searchProfiles normalize api maxItems keyword department institution).1.length
      ≤ maxItems) ∧
    (∀ acc offset total empties, maxItems ≤ acc.length →
      searchLoop api maxItems (sanitizeInput normalize keyword)
        (sanitizeInput normalize institution) (sanitizeInput normalize department)
        acc offset total empties = (acc, [])) ∧
    (maxItems ≤ (searchLoop api maxItems (sanitizeInput normalize keyword)
        (sanitizeInput normalize institution) (sanitizeInput normalize department)
        [] 1 none 0).1.length →
      (searchProfiles normalize api maxItems keyword department institution).1.length
        = maxItems) := by
  refine ⟨?_, ?_, ?_⟩
  · show ((searchLoop api maxItems (sanitizeInput normalize keyword)
      (sanitizeInput normalize institution) (sanitizeInput normalize department)
      [] 1 none 0).1.take maxItems).length ≤ maxItems
    rw [List.length_take]
    exact Nat.min_le_left _ _
  · intro acc offset total empties h
    rw [searchLoop]
    simp [show ¬ acc.length < maxItems from by omega]
  · intro h
    show ((searchLoop api maxItems (sanitizeInput normalize keyword)
      (sanitizeInput normalize institution) (sanitizeInput normalize department)
      [] 1 none 0).1.take maxItems).length = maxItems
    rw [List.length_take]
    omega

/-- Witness for C8 at maxItems = 1 with an erroring API. -/
theorem collect_maxItems_bound_witness :
    (searchProfiles (fun l => l) (fun _ => none) 1 [] [] []).1.length ≤ 1 :=
  (collect_maxItems_bound (fun l => l) (fun _ => none) 1 [] [] [] (by decide)).1

/-- C9 counterexample: with one result per page and a known total of 1
(learned from the first response), the current offset exceeds the known
total from the second iteration on (11 > 1 and 21 > 1), yet the loop keeps
requesting pages — offsets 1, 11 and 21 are all sent — because the
total-exceeded check is made only on empty pages. The claimed stop
condition "once the known total has been exceeded by the current offset"
therefore does not stop the loop here. -/
theorem total_exceeded_counterexample :
    ((searchProfiles (fun l => l)
        (fun _ => some
          { Count := 1
            People := [{ DisplayName := some "A"
                         PersonID := some "p1"
                         InstitutionName := none
                         DepartmentName := none
                         FacultyRank := none }] })
        3 [] [] []).2.map Payload.Offset) = [1, 11, 21] ∧
    (1 : Nat) < 11 := by
  constructor
  · rw [searchProfiles]
    simp +decide [searchLoop, sanitizeInput, jsTrim, pushUpTo, updateTotal,
      exceedsTotal, mkPayload, mkProfile, pageSize]
  · decide

/-- C9 amended: each page returning zero items increments `emptyPagesCount`
and each non-empty page resets it to 0; the stop checks happen only upon an
empty page, in this order: stop once 5 consecutive empty pages have
occurred, else stop if the known total is exceeded by the current offset
(non-empty pages never trigger the total check); and with `totalAvailable`
unknown, 5 consecutive empty pages make the function return whatever was
gathered, without raising an error. -/
theorem pagination_empty_pages (api : Nat → Option ApiResponse) (maxItems : Nat)
    (k i d : List Nat) :
    (∀ acc offset total empties data, acc.length < maxItems →
      api offset = some data → data.People = [] →
      (5 ≤ empties + 1 →
        searchLoop api maxItems k i d acc offset total empties
          = (acc, [mkPayload k i d pageSize offset])) ∧
      (¬ 5 ≤ empties + 1 →
        exceedsTotal (updateTotal total data.Count) offset = true →
        searchLoop api maxItems k i d acc offset total empties
          = (acc, [mkPayload k i d pageSize offset])) ∧
      (¬ 5 ≤ empties + 1 →
        exceedsTotal (updateTotal total data.Count) offset = false →
        searchLoop api maxItems k i d acc offset total empties
          = ((searchLoop api maxItems k i d acc (offset + pageSize)
                (updateTotal total data.Count) (empties + 1)).1,
             mkPayload k i d pageSize offset ::
               (searchLoop api maxItems k i d acc (offset + pageSize)
                 (updateTotal total data.Count) (empties + 1)).2))) ∧
    (∀ acc offset total empties data head rest, acc.length < maxItems →
      api offset = some data → data.People = head :: rest →
      searchLoop api maxItems k i d acc offset total empties
        = (if maxItems ≤ (pushUpTo maxItems acc (head :: rest)).length then
             (pushUpTo maxItems acc (head :: rest), [mkPayload k i d pageSize offset])
           else
             ((searchLoop api maxItems k i d (pushUpTo maxItems acc (head :: rest))
                 (offset + pageSize) (updateTotal total data.Count) 0).1,
              mkPayload k i d pageSize offset ::
                (searchLoop api maxItems k i d (pushUpTo maxItems acc (head :: rest))
                  (offset + pageSize) (updateTotal total data.Count) 0).2))) ∧
    (∀ acc offset,
      (∀ j, j < 5 → api (offset + pageSize * j) = some { Count := 0, People := [] }) →
      (searchLoop api maxItems k i d acc offset none 0).1 = acc) := by
  refine ⟨?_, ?_, ?_⟩
  · intro acc offset total empties data h1 hapi hPeople
    refine ⟨?_, ?_, ?_⟩
    · intro h3
      rw [searchLoop]
      simp [h1, hapi, hPeople, h3]
    · intro h3 hex
      rw [searchLoop]
      simp [h1, hapi, hPeople, h3, hex]
    · intro h3 hex
      rw [searchLoop]
      simp [h1, hapi, hPeople, h3, hex]
  · intro acc offset total empties data head rest h1 hapi hPeople
    rw [searchLoop]
    by_cases h5 : maxItems ≤ (pushUpTo maxItems acc (head :: rest)).length
    · simp [h1, hapi, hPeople, h5]
    · simp [h1, hapi, hPeople, h5]
  · intro acc offset hpages
    exact searchLoop_empties_aux api maxItems k i d 5 acc offset 0 (by omega)
      (by omega) hpages

/-- Witness for C9 (amended): an all-empty API with unknown total returns
the empty gathered list after the 5 empty pages. -/
theorem pagination_empty_pages_witness :
    (searchLoop (fun _ => some { Count := 0, People := [] }) 7 [] [] [] [] 1 none 0).1
      = ([] : List Profile) :=
  (pagination_empty_pages (fun _ => some { Count := 0, People := [] }) 7 [] [] []).2.2
    [] 1 (fun _ _ => rfl)

/-! ## Helper lemmas for the orchestrator claims -/

theorem jsSetAdd_mem (s : List String) (x y : String) :
    y ∈ jsSetAdd s x ↔ y ∈ s ∨ y = x := by
  by_cases hx : s.contains x
  · have hxs : x ∈ s := by simpa [List.elem_iff] using hx
    simp only [jsSetAdd, hx, if_true]
    constructor
    · exact Or.inl
    · rintro (h | rfl)
      · exact h
      · exact hxs
  · simp only [jsSetAdd, hx, if_false]
    simp [List.mem_append]

theorem countPush_append (id : String) (t1 t2 : List Ev) :
    countPush id (t1 ++ t2) = countPush id t1 + countPush id t2 := by
  simp [countPush, List.filter_append]

theorem countPartialPush_append (id : String) (t1 t2 : List Ev) :
    countPartialPush id (t1 ++ t2)
      = countPartialPush id t1 + countPartialPush id t2 := by
  simp [countPartialPush, List.filter_append]

theorem countPush_pair (id : String) (r : OutputRecord) (m : String) :
    countPush id [Ev.push r, Ev.mark m] = if r.personId = id then 1 else 0 := by
  by_cases h : r.personId = id
  · simp [countPush, isPushFor, List.filter, h]
  · have hb : (r.personId == id) = false := beq_eq_false_iff_ne.mpr h
    simp [countPush, isPushFor, List.filter, h, hb]

theorem countPartialPush_pair (id : String) (r : OutputRecord) (m : String) :
    countPartialPush id [Ev.push r, Ev.mark m]
      = if r.personId = id ∧ r.partialFlag = true then 1 else 0 := by
  by_cases h1 : r.personId = id
  · by_cases h2 : r.partialFlag = true
    · simp [countPartialPush, isPartialPushFor, List.filter, h1, h2]
    · simp [countPartialPush, isPartialPushFor, List.filter, h1, h2]
  · have hb : (r.personId == id) = false := beq_eq_false_iff_ne.mpr h1
    simp [countPartialPush, isPartialPushFor, List.filter, h1, hb]

theorem countPartialPush_le_countPush (id : String) (t : List Ev) :
    countPartialPush id t ≤ countPush id t := by
  induction t with
  | nil => simp [countPartialPush, countPush]
  | cons e rest ih =>
    have h1 : countPartialPush id (e :: rest)
        = countPartialPush id [e] + countPartialPush id rest :=
      countPartialPush_append id [e] rest
    have h2 : countPush id (e :: rest) = countPush id [e] + countPush id rest :=
      countPush_append id [e] rest
    have h3 : countPartialPush id [e] ≤ countPush id [e] := by
      cases e with
      | push r =>
        by_cases hr : r.personId == id
        · by_cases hf : r.partialFlag <;>
            simp [countPartialPush, countPush, isPartialPushFor, isPushFor,
              List.filter, hr, hf]
        · simp [countPartialPush, countPush, isPartialPushFor, isPushFor,
            List.filter, hr]
      | mark m =>
        simp [countPartialPush, countPush, isPartialPushFor, isPushFor, List.filter]
    omega

theorem isProcessed_eq_false_iff (st : SMState) (id : String) :
    isProcessed st id = false ↔ id ∉ st.processedPersonIds := by
  constructor
  · intro h hmem
    rw [← List.elem_iff] at hmem
    exact absurd hmem (by simp [isProcessed, jsSetHas] at h; simp [h])
  · intro h
    by_cases hc : isProcessed st id = true
    · exact absurd (List.elem_iff.mp (by simpa [isProcessed, jsSetHas] using hc)) h
    · simpa using hc

theorem profileDisplayUrl_inj {a b : String}
    (h : profileDisplayUrl a = profileDisplayUrl b) : a = b := by
  simp only [profileDisplayUrl] at h
  have hd := congrArg String.data h
  simp only [String.data_append] at hd
  have := List.append_cancel_left hd
  exact String.ext this

theorem dedupByUrl_subset :
    ∀ (l : List Profile) (seen : List String), ∀ q ∈ dedupByUrl seen l, q ∈ l := by
  intro l
  induction l with
  | nil =>
    intro seen q hq
    simp [dedupByUrl] at hq
  | cons p ps ih =>
    intro seen q hq
    rw [dedupByUrl] at hq
    by_cases hc : seen.contains p.profileUrl = true
    · rw [if_pos hc] at hq
      exact List.mem_cons_of_mem p (ih seen q hq)
    · rw [if_neg hc] at hq
      rcases List.mem_cons.mp hq with rfl | hq'
      · exact List.mem_cons_self q ps
      · exact List.mem_cons_of_mem p (ih (p.profileUrl :: seen) q hq')

theorem dedupByUrl_urls_nodup :
    ∀ (l : List Profile) (seen : List String),
      ((dedupByUrl seen l).map Profile.profileUrl).Nodup ∧
      ∀ q ∈ dedupByUrl seen l, q.profileUrl ∉ seen := by
  intro l
  induction l with
  | nil =>
    intro seen
    simp [dedupByUrl]
  | cons p ps ih =>
    intro seen
    rw [dedupByUrl]
    by_cases hc : seen.contains p.profileUrl = true
    · rw [if_pos hc]
      exact ih seen
    · rw [if_neg hc]
      obtain ⟨ihn, ihs⟩ := ih (p.profileUrl :: seen)
      have hpseen : p.profileUrl ∉ seen := by
        intro hmem
        exact hc (List.elem_iff.mpr hmem)
      constructor
      · rw [List.map_cons, List.nodup_cons]
        refine ⟨?_, ihn⟩
        intro hmem
        rcases List.mem_map.mp hmem with ⟨q, hq, hqu⟩
        exact (ihs q hq) (by rw [hqu]; exact List.mem_cons_self _ _)
      · intro q hq
        rcases List.mem_cons.mp hq with rfl | hq'
        · exact hpseen
        · exact fun hmem => (ihs q hq') (List.mem_cons_of_mem _ hmem)

theorem dedupByUrl_mem_url :
    ∀ (l : List Profile) (seen : List String) (p : Profile),
      p ∈ l → p.profileUrl ∉ seen →
      ∃ q ∈ dedupByUrl seen l, q.profileUrl = p.profileUrl := by
  intro l
  induction l with
  | nil =>
    intro seen p hp
    simp at hp
  | cons p0 ps ih =>
    intro seen p hp hseen
    rw [dedupByUrl]
    by_cases hc : seen.contains p0.profileUrl = true
    · rw [if_pos hc]
      rcases List.mem_cons.mp hp with rfl | hp'
      · exact absurd (List.elem_iff.mp hc) hseen
      · exact ih seen p hp' hseen
    · rw [if_neg hc]
      rcases List.mem_cons.mp hp with rfl | hp'
      · exact ⟨p, List.mem_cons_self _ _, rfl⟩
      · by_cases heq : p.profileUrl = p0.profileUrl
        · exact ⟨p0, List.mem_cons_self _ _, heq.symm⟩
        · have hseen' : p.profileUrl ∉ p0.profileUrl :: seen := by
            simp [heq, hseen]
          obtain ⟨q, hq, hqu⟩ := ih (p0.profileUrl :: seen) p hp' hseen'
          exact ⟨q, List.mem_cons_of_mem _ hq, hqu⟩

theorem runRequest_spec (orc : String → Nat → Attempt) (st : SMState) (p : Profile)
    (hfresh : isProcessed st p.personId = false) (retryCount : Nat) :
    (runRequest orc st p retryCount).1 = markProcessed p.personId st ∧
    ∃ r : OutputRecord, r.personId = p.personId ∧
      (runRequest orc st p retryCount).2 = [Ev.push r, Ev.mark p.personId] ∧
      ((∀ n, isOkAttempt (orc p.personId n) = false) → r.partialFlag = true) := by
  induction retryCount using runRequest.induct orc st p with
  | case1 rc msg horc h ih =>
    rw [runRequest]
    simpa [horc, h] using ih
  | case2 rc msg horc h =>
    rw [runRequest]
    refine ⟨by simp [horc, h], failedRecord p msg, rfl, by simp [horc, h],
      fun _ => rfl⟩
  | case3 rc msg horc hproc =>
    exact absurd hproc (by simp [hfresh])
  | case4 rc msg horc hproc h =>
    rw [runRequest]
    refine ⟨by simp [horc, hfresh, h], partialRecord p msg, rfl,
      by simp [horc, hfresh, h], fun _ => rfl⟩
  | case5 rc msg horc hproc h ih =>
    rw [runRequest]
    simpa [horc, hfresh, h] using ih
  | case6 rc d horc hproc =>
    exact absurd hproc (by simp [hfresh])
  | case7 rc d horc hproc =>
    rw [runRequest]
    refine ⟨by simp [horc, hfresh], completeRecord p d, rfl,
      by simp [horc, hfresh], ?_⟩
    intro hfail
    have := hfail rc
    rw [horc] at this
    simp [isOkAttempt] at this

theorem runList_spec (orc : String → Nat → Attempt) :
    ∀ (ps : List Profile) (st : SMState),
      (ps.map Profile.personId).Nodup →
      (∀ p ∈ ps, isProcessed st p.personId = false) →
      (∀ id, id ∈ (runList orc st ps).1.processedPersonIds ↔
        id ∈ st.processedPersonIds ∨ id ∈ ps.map Profile.personId) ∧
      (∀ id, countPush id (runList orc st ps).2
        = if id ∈ ps.map Profile.personId then 1 else 0) ∧
      (∀ p ∈ ps, (∀ n, isOkAttempt (orc p.personId n) = false) →
        countPartialPush p.personId (runList orc st ps).2 = 1) := by
  intro ps
  induction ps with
  | nil =>
    intro st _ _
    refine ⟨by simp [runList], by simp [runList, countPush], by simp⟩
  | cons p ps ih =>
    intro st hnd hfresh
    rw [List.map_cons, List.nodup_cons] at hnd
    obtain ⟨hpid, hnd'⟩ := hnd
    have hfp : isProcessed st p.personId = false := hfresh p (List.mem_cons_self p ps)
    obtain ⟨hA1, r, hrid, hA2, hrpartial⟩ := runRequest_spec orc st p hfp 0
    have hfresh' : ∀ q ∈ ps, isProcessed (runRequest orc st p 0).1 q.personId = false := by
      intro q hq
      rw [hA1]
      rw [isProcessed_eq_false_iff]
      simp only [markProcessed, jsSetAdd_mem]
      push_neg
      constructor
      · exact (isProcessed_eq_false_iff st q.personId).mp (hfresh q (List.mem_cons_of_mem p hq))
      · intro hqe
        exact hpid (hqe ▸ List.mem_map_of_mem Profile.personId hq)
    obtain ⟨ih1, ih2, ih3⟩ := ih (runRequest orc st p 0).1 hnd' hfresh'
    have hsplit1 : (runList orc st (p :: ps)).1
        = (runList orc (runRequest orc st p 0).1 ps).1 := by
      simp [runList]
    have hsplit2 : (runList orc st (p :: ps)).2
        = (runRequest orc st p 0).2 ++ (runList orc (runRequest orc st p 0).1 ps).2 := by
      simp [runList]
    have hpid' : ∀ x ∈ ps, ¬ x.personId = p.personId := by
      intro x hx he
      exact hpid (he ▸ List.mem_map_of_mem Profile.personId hx)
    refine ⟨?_, ?_, ?_⟩
    · intro id
      rw [hsplit1, ih1 id, hA1]
      simp only [markProcessed, jsSetAdd_mem, List.map_cons, List.mem_cons]
      tauto
    · intro id
      rw [hsplit2, countPush_append, hA2, countPush_pair, ih2 id, hrid]
      by_cases h : id = p.personId
      · subst h
        simp [List.map_cons, hpid]
      · have hne : ¬ p.personId = id := fun he => h he.symm
        by_cases h2 : id ∈ ps.map Profile.personId
        · simp [List.map_cons, hne, h2, h]
        · simp [List.map_cons, hne, h2, h]
    · intro q hq hqfail
      rw [hsplit2, countPartialPush_append, hA2, countPartialPush_pair]
      rcases List.mem_cons.mp hq with rfl | hq'
      · have hflag : r.partialFlag = true := hrpartial hqfail
        have hcp : countPush q.personId (runList orc (runRequest orc st q 0).1 ps).2 = 0 := by
          rw [ih2 q.personId]
          simp [hpid]
        have hle := countPartialPush_le_countPush q.personId
          (runList orc (runRequest orc st q 0).1 ps).2
        rw [hcp] at hle
        rw [if_pos ⟨hrid, hflag⟩]
        omega
      · have hqne : ¬ (r.personId = q.personId ∧ r.partialFlag = true) := by
          rintro ⟨he, _⟩
          rw [hrid] at he
          exact (hpid' q hq') he.symm
        rw [if_neg hqne, ih3 q hq' hqfail]

theorem pbmCheck_append (t1 t2 : List Ev) :
    ∀ pushed, pbmCheck pushed (t1 ++ t2)
      = (pbmCheck pushed t1 && pbmCheck (pushedAccum pushed t1) t2) := by
  induction t1 with
  | nil =>
    intro pushed
    simp [pbmCheck, pushedAccum]
  | cons e rest ih =>
    intro pushed
    cases e with
    | push r =>
      simp only [List.cons_append, List.append_eq, pbmCheck]
      rw [ih (r.personId :: pushed)]
      simp [pushedAccum]
    | mark id =>
      simp only [List.cons_append, List.append_eq, pbmCheck]
      rw [ih pushed]
      cases pushed.contains id <;> simp [pushedAccum]

theorem runRequest_pbm (orc : String → Nat → Attempt) (st : SMState) (p : Profile) :
    ∀ (retryCount : Nat) (pushed : List String),
      pbmCheck pushed (runRequest orc st p retryCount).2 = true := by
  intro retryCount
  induction retryCount using runRequest.induct orc st p with
  | case1 rc msg horc h ih =>
    intro pushed
    rw [runRequest]
    simpa [horc, h] using ih pushed
  | case2 rc msg horc h =>
    intro pushed
    rw [runRequest]
    simp [horc, h, pbmCheck, failedRecord, List.elem_iff]
  | case3 rc msg horc hproc =>
    intro pushed
    rw [runRequest]
    simp [horc, hproc, pbmCheck]
  | case4 rc msg horc hproc h =>
    intro pushed
    rw [runRequest]
    simp [horc, hproc, h, pbmCheck, partialRecord, List.elem_iff]
  | case5 rc msg horc hproc h ih =>
    intro pushed
    rw [runRequest]
    simpa [horc, hproc, h] using ih pushed
  | case6 rc d horc hproc =>
    intro pushed
    rw [runRequest]
    simp [horc, hproc, pbmCheck]
  | case7 rc d horc hproc =>
    intro pushed
    rw [runRequest]
    simp [horc, hproc, pbmCheck, completeRecord, List.elem_iff]

theorem runList_pbm (orc : String → Nat → Attempt) :
    ∀ (ps : List Profile) (st : SMState) (pushed : List String),
      pbmCheck pushed (runList orc st ps).2 = true := by
  intro ps
  induction ps with
  | nil =>
    intro st pushed
    simp [runList, pbmCheck]
  | cons p ps ih =>
    intro st pushed
    have hsplit : (runList orc st (p :: ps)).2
        = (runRequest orc st p 0).2 ++ (runList orc (runRequest orc st p 0).1 ps).2 := by
      simp [runList]
    rw [hsplit, pbmCheck_append, runRequest_pbm orc st p 0 pushed,
      ih (runRequest orc st p 0).1 (pushedAccum pushed (runRequest orc st p 0).2)]
    rfl

/-- C2: in a run started from a fresh state, with candidate summaries whose
URLs are the per-id display URLs produced by the search client: at most one
output record is ever written per id; exactly one is written for every id
that ends up marked processed; and an id whose enrichment fails on every
attempt gets exactly one Partial record and is marked processed. -/
theorem run_output_once (orc : String → Nat → Attempt) (st : SMState)
    (profiles : List Profile)
    (h0 : st.processedPersonIds = [])
    (hurl : ∀ p ∈ profiles, p.profileUrl = profileDisplayUrl p.personId) :
    (∀ id, countPush id (runPipeline orc st profiles).2 ≤ 1) ∧
    (∀ id, id ∈ (runPipeline orc st profiles).1.processedPersonIds →
      countPush id (runPipeline orc st profiles).2 = 1) ∧
    (∀ p ∈ profiles, (∀ n, isOkAttempt (orc p.personId n) = false) →
      countPartialPush p.personId (runPipeline orc st profiles).2 = 1 ∧
      p.personId ∈ (runPipeline orc st profiles).1.processedPersonIds) := by
  have hfilter : profiles.filter (fun p => !(isProcessed st p.personId)) = profiles := by
    apply List.filter_eq_self.mpr
    intro p _
    simp [isProcessed, jsSetHas, h0]
  have hD : runPipeline orc st profiles = runList orc st (dedupByUrl [] profiles) := by
    rw [runPipeline, hfilter]
  have hDsub : ∀ q ∈ dedupByUrl [] profiles, q ∈ profiles :=
    dedupByUrl_subset profiles []
  have hDurl : ∀ q ∈ dedupByUrl [] profiles,
      q.profileUrl = profileDisplayUrl q.personId :=
    fun q hq => hurl q (hDsub q hq)
  have hDidnodup : ((dedupByUrl [] profiles).map Profile.personId).Nodup := by
    have hDurlnodup := (dedupByUrl_urls_nodup profiles []).1
    have hmapeq : (dedupByUrl [] profiles).map Profile.profileUrl
        = ((dedupByUrl [] profiles).map Profile.personId).map profileDisplayUrl := by
      rw [List.map_map]
      exact List.map_congr_left hDurl
    rw [hmapeq] at hDurlnodup
    exact hDurlnodup.of_map
  have hDfresh : ∀ p ∈ dedupByUrl [] profiles, isProcessed st p.personId = false := by
    intro p _
    rw [isProcessed_eq_false_iff, h0]
    simp
  obtain ⟨hs1, hs2, hs3⟩ := runList_spec orc (dedupByUrl [] profiles) st hDidnodup hDfresh
  refine ⟨?_, ?_, ?_⟩
  · intro id
    rw [hD, hs2 id]
    split
    · exact le_refl 1
    · exact Nat.zero_le 1
  · intro id hmem
    rw [hD] at hmem ⊢
    rw [hs2 id]
    rcases (hs1 id).mp hmem with hin | hin
    · rw [h0] at hin
      simp at hin
    · rw [if_pos hin]
  · intro p hp hfail
    have hpurlnot : p.profileUrl ∉ ([] : List String) := by simp
    obtain ⟨q, hq, hqurl⟩ := dedupByUrl_mem_url profiles [] p hp hpurlnot
    have hqid : q.personId = p.personId := by
      apply profileDisplayUrl_inj
      rw [← hDurl q hq, hqurl, hurl p hp]
    have hqfail : ∀ n, isOkAttempt (orc q.personId n) = false := by
      intro n
      rw [hqid]
      exact hfail n
    constructor
    · rw [hD, ← hqid]
      exact hs3 q hq hqfail
    · rw [hD]
      apply (hs1 p.personId).mpr
      right
      rw [← hqid]
      exact List.mem_map_of_mem Profile.personId hq

/-- Witness for C2: a single always-failing id yields exactly one Partial
record. -/
theorem run_output_once_witness :
    countPartialPush "p1"
      (runPipeline (fun _ _ => Attempt.extractFail "boom") initialState
        [{ displayName := "A", personId := "p1", institutionName := "",
           departmentName := "", facultyRank := "",
           profileUrl := profileDisplayUrl "p1" }]).2 = 1 :=
  ((run_output_once (fun _ _ => Attempt.extractFail "boom") initialState
      [{ displayName := "A", personId := "p1", institutionName := "",
         departmentName := "", facultyRank := "",
         profileUrl := profileDisplayUrl "p1" }]
      rfl
      (by
        intro p hp
        rw [List.mem_singleton] at hp
        subst hp
        rfl)).2.2
    { displayName := "A", personId := "p1", institutionName := "",
      departmentName := "", facultyRank := "",
      profileUrl := profileDisplayUrl "p1" }
    (List.mem_singleton.mpr rfl)
    (fun _ => rfl)).1

/-- C3: in the orchestrator's per-item processing, `markProcessed(id)` is
never called before the output record for that id has been pushed to the
output sink: in every run trace (success path, exhausted-retries partial
path and failed-request handler path alike), every `mark id` event is
preceded by a completed push of a record with that id. -/
theorem mark_after_push (orc : String → Nat → Attempt) (st : SMState)
    (profiles : List Profile) :
    pbmCheck [] (runPipeline orc st profiles).2 = true :=
  runList_pbm orc
    (dedupByUrl [] (profiles.filter (fun p => !(isProcessed st p.personId)))) st []

end HarvardScraper
